import Mathlib

/-!
Verification development for the cooperative box-pushing domain
(`open_spiel/games/coop_box_pushing.h`).

The repository provides the class header; the method bodies other than the
inline ones (`InformationState`, `CurrentPlayer`, `MaxChanceOutcomes`,
`MaxGameLength`) are not part of the sources, so the simultaneous-action
resolution engine, the chance draw, the legal-action set, the terminal test
and the observation encoder are modelled from the design document
(spec sections 3, 4.2, 4.3, 4.4, 6), faithful to its words.  All
definitions are executable so that concrete scenarios evaluate by `decide`.
-/

namespace CoopBoxPushing

/-- Static cell kinds of the grid layout (spec section 3: `Open`, `Wall`,
`Goal`; the movable objects are dynamic state, kept in `EpisodeState`). -/
inductive CellKind
  | Open
  | Wall
  | Goal
deriving DecidableEq

/-- Direction each agent can be facing (header `OrientationType`; the
`kInvalid` sentinel is only for uninitialized state and is not modelled). -/
inductive Orientation
  | north
  | east
  | south
  | west
deriving DecidableEq

/-- Different actions used by the agent (header `ActionType`). -/
inductive ActionType
  | turnLeft
  | turnRight
  | moveForward
  | stay
deriving DecidableEq

/-- Status of each agent's action (header `ActionStatusType`). -/
inductive ActionStatusType
  | unresolved
  | success
  | fail
deriving DecidableEq

/-- Coordinates are (row, col), as in the header. -/
abbrev Coord := Int × Int

/-- Modelled from the spec (section 4.1): an immutable bounded grid of cell
kinds. -/
structure GridLayout where
  rows : Int
  cols : Int
  cell : Coord → CellKind

/-- Bounds test for a coordinate (spec section 4.1 `inBounds`). -/
def inB (g : GridLayout) (p : Coord) : Bool :=
  decide (0 ≤ p.1) && decide (p.1 < g.rows) && decide (0 ≤ p.2) && decide (p.2 < g.cols)

/-- Row/column offset of one forward step in a given orientation
((row, col), rows grow southward). -/
def delta : Orientation → Coord
  | .north => (-1, 0)
  | .east => (0, 1)
  | .south => (1, 0)
  | .west => (0, -1)

/-- The cell one step from `p` along orientation `o`. -/
def stepTo (p : Coord) (o : Orientation) : Coord :=
  (p.1 + (delta o).1, p.2 + (delta o).2)

/-- 90-degree counterclockwise rotation (spec section 4.3 step 1). -/
def rotLeft : Orientation → Orientation
  | .north => .west
  | .west => .south
  | .south => .east
  | .east => .north

/-- 90-degree clockwise rotation (spec section 4.3 step 1). -/
def rotRight : Orientation → Orientation
  | .north => .east
  | .east => .south
  | .south => .west
  | .west => .north

/-- The mutable per-episode data (spec section 3 `EpisodeState`, mirroring
the header's private fields: player coordinates and orientations, object
positions, move counter, horizon, initiative, win flag, most recent and
accumulated reward, per-agent statuses).  Agents are indexed by `Bool`
(`false` = agent 0).  `chancePending` models the episode phase: the
initiative chance draw happens once at episode start. -/
structure EpisodeState where
  p0 : Coord
  p1 : Coord
  o0 : Orientation
  o1 : Orientation
  smallPos : Coord
  bigPos : Coord
  totalMoves : Nat
  horizon : Nat
  initiative : Bool
  win : Bool
  reward : ℚ
  totalRewards : ℚ
  status0 : ActionStatusType
  status1 : ActionStatusType
  chancePending : Bool
deriving DecidableEq

/-- Position of agent `i`. -/
def pos (s : EpisodeState) : Bool → Coord
  | false => s.p0
  | true => s.p1

/-- Orientation of agent `i`. -/
def orient (s : EpisodeState) : Bool → Orientation
  | false => s.o0
  | true => s.o1

/-- The action submitted by agent `i` in the pair `(a0, a1)`. -/
def act (a0 a1 : ActionType) : Bool → ActionType
  | false => a0
  | true => a1

/-- Status of agent `i`. -/
def statusField (s : EpisodeState) : Bool → ActionStatusType
  | false => s.status0
  | true => s.status1

/-- Candidate target cell of agent `i`: current position offset one step
along current orientation (spec section 4.3 step 3). -/
def cand (s : EpisodeState) (i : Bool) : Coord :=
  stepTo (pos s i) (orient s i)

/-- Modelled from the spec (section 4.3 step 3, read from the
pre-resolution snapshot): what agent `i`'s `MoveForward` would do
considered on its own.  `idle` is for non-`MoveForward` actions, `blocked`
for a forward move that fails against walls, bounds or objects; the
remaining constructors record the destination (and pushed-box destination)
of a feasible step, small-box push, or two-agent large-box push. -/
inductive Intent
  | idle
  | blocked
  | move (dest : Coord)
  | pushSmall (dest boxDest : Coord)
  | pushBig (dest boxDest : Coord)
deriving DecidableEq

/-- Modelled from the spec: per-agent intent computed from the
pre-resolution snapshot.  Rule 3a (bounds/wall), 3e (large object: both
agents must target it with the same orientation and its further cell must
be in bounds, not a wall and not the small object), 3d (small object: its
further cell must be in bounds, not a wall, not the other agent, not the
large object), 3f (otherwise advance).  Agent-agent interactions (3b, 3c)
are resolved afterwards in `finalOk`. -/
def intentOf (g : GridLayout) (s : EpisodeState) (a0 a1 : ActionType) (i : Bool) : Intent :=
  if act a0 a1 i ≠ ActionType.moveForward then .idle
  else
    if inB g (cand s i) = false ∨ g.cell (cand s i) = CellKind.Wall then .blocked
    else if cand s i = s.bigPos then
      if act a0 a1 (!i) = ActionType.moveForward ∧ cand s (!i) = s.bigPos
         ∧ orient s i = orient s (!i)
         ∧ inB g (stepTo s.bigPos (orient s i)) = true
         ∧ g.cell (stepTo s.bigPos (orient s i)) ≠ CellKind.Wall
         ∧ stepTo s.bigPos (orient s i) ≠ s.smallPos
      then .pushBig (cand s i) (stepTo s.bigPos (orient s i))
      else .blocked
    else if cand s i = s.smallPos then
      if inB g (stepTo s.smallPos (orient s i)) = true
         ∧ g.cell (stepTo s.smallPos (orient s i)) ≠ CellKind.Wall
         ∧ stepTo s.smallPos (orient s i) ≠ pos s (!i)
         ∧ stepTo s.smallPos (orient s i) ≠ s.bigPos
      then .pushSmall (cand s i) (stepTo s.smallPos (orient s i))
      else .blocked
    else .move (cand s i)

/-- Destination of a feasible intent (`none` for idle/blocked). -/
def destOf : Intent → Option Coord
  | .move d => some d
  | .pushSmall d _ => some d
  | .pushBig d _ => some d
  | _ => none

/-- Destination of the small box under a small-box-pushing intent. -/
def smallDest : Intent → Option Coord
  | .pushSmall _ b => some b
  | _ => none

/-- Destination of the large box under a large-box-pushing intent. -/
def bigDest : Intent → Option Coord
  | .pushBig _ b => some b
  | _ => none

/-- Whether the intent is a two-agent large-box push. -/
def isPushBig : Intent → Bool
  | .pushBig _ _ => true
  | _ => false

/-- Cells a feasible intent would newly occupy (agent destination and, for
pushes, box destination). -/
def claimsOf : Intent → List Coord
  | .move d => [d]
  | .pushSmall d b => [d, b]
  | .pushBig d b => [d, b]
  | _ => []

/-- Whether two claim lists share a cell. -/
def overlaps (xs ys : List Coord) : Bool :=
  xs.any (fun c => decide (c ∈ ys))

/-- Modelled from the spec (section 4.3 steps 3b, 3c, 4): whether agent
`i`'s action finally succeeds, deciding the agent-agent interactions on
top of the per-agent intents.  Rotations and `Stay` always succeed
(steps 1-2).  A forward move into the other agent's current cell succeeds
only when that agent vacates it this turn toward a third cell; a head-on
swap (both candidates target each other's cells) fails for both (step 3b).
When both agents' feasible moves claim a common cell, only the agent with
resolution priority (`initiative`) succeeds (step 3c), except for the
joint large-box push, where both succeed (step 3e). -/
def finalOk (g : GridLayout) (s : EpisodeState) (a0 a1 : ActionType) (i : Bool) : Bool :=
  if act a0 a1 i ≠ ActionType.moveForward then true
  else
    match destOf (intentOf g s a0 a1 i) with
    | Option.none => false
    | Option.some d =>
      if d = pos s (!i) then
        match destOf (intentOf g s a0 a1 (!i)) with
        | Option.none => false
        | Option.some e => decide (e ≠ pos s i)
      else
        match destOf (intentOf g s a0 a1 (!i)) with
        | Option.none => true
        | Option.some _ =>
          if overlaps (claimsOf (intentOf g s a0 a1 i)) (claimsOf (intentOf g s a0 a1 (!i))) = true
             ∧ ¬(isPushBig (intentOf g s a0 a1 i) = true ∧ isPushBig (intentOf g s a0 a1 (!i)) = true)
          then decide (i = s.initiative)
          else true

/-- Post-resolution position of agent `i` (spec section 4.3 step 4:
updates applied atomically from the pre-turn snapshot). -/
def newPosOf (g : GridLayout) (s : EpisodeState) (a0 a1 : ActionType) (i : Bool) : Coord :=
  match destOf (intentOf g s a0 a1 i) with
  | Option.none => pos s i
  | Option.some d => if finalOk g s a0 a1 i = true then d else pos s i

/-- Post-resolution orientation of agent `i` (spec section 4.3 step 1). -/
def newOrientOf (s : EpisodeState) (a0 a1 : ActionType) (i : Bool) : Orientation :=
  match act a0 a1 i with
  | .turnLeft => rotLeft (orient s i)
  | .turnRight => rotRight (orient s i)
  | _ => orient s i

/-- Post-resolution status of agent `i` (`Success` or `Fail`). -/
def statusOf (g : GridLayout) (s : EpisodeState) (a0 a1 : ActionType) (i : Bool) : ActionStatusType :=
  if finalOk g s a0 a1 i = true then .success else .fail

/-- The small-box destination produced by agent `i`, when its small-box
push finally succeeds. -/
def effSmallPush (g : GridLayout) (s : EpisodeState) (a0 a1 : ActionType) (i : Bool) : Option Coord :=
  if finalOk g s a0 a1 i = true then smallDest (intentOf g s a0 a1 i) else Option.none

/-- The large-box destination produced by agent `i`, when its large-box
push finally succeeds. -/
def effBigPush (g : GridLayout) (s : EpisodeState) (a0 a1 : ActionType) (i : Bool) : Option Coord :=
  if finalOk g s a0 a1 i = true then bigDest (intentOf g s a0 a1 i) else Option.none

/-- Post-resolution position of the small object. -/
def newSmallPos (g : GridLayout) (s : EpisodeState) (a0 a1 : ActionType) : Coord :=
  match effSmallPush g s a0 a1 false with
  | Option.some b => b
  | Option.none =>
    match effSmallPush g s a0 a1 true with
    | Option.some b => b
    | Option.none => s.smallPos

/-- Post-resolution position of the large object. -/
def newBigPos (g : GridLayout) (s : EpisodeState) (a0 a1 : ActionType) : Coord :=
  match effBigPush g s a0 a1 false with
  | Option.some b => b
  | Option.none =>
    match effBigPush g s a0 a1 true with
    | Option.some b => b
    | Option.none => s.bigPos

/-- Modelled from the spec (section 4.3 step 3e): `won` becomes true the
turn the large object's further cell reaches the `Goal` cell, and stays
true. -/
def newWin (g : GridLayout) (s : EpisodeState) (a0 a1 : ActionType) : Bool :=
  s.win ||
    (match effBigPush g s a0 a1 false with
     | Option.some b => decide (g.cell b = CellKind.Goal)
     | Option.none =>
       match effBigPush g s a0 a1 true with
       | Option.some b => decide (g.cell b = CellKind.Goal)
       | Option.none => false)

/-- Modelled from the spec (section 4.3 step 5): the small fixed negative
per-turn step cost. -/
def stepCost : ℚ := -1/10

/-- Modelled from the spec (section 4.3 step 5): the large fixed positive
reward applied once, the turn `won` transitions to true. -/
def winBonus : ℚ := 100

/-- Reward of one resolved turn (spec section 4.3 step 5). -/
def stepReward (g : GridLayout) (s : EpisodeState) (a0 a1 : ActionType) : ℚ :=
  stepCost + (if s.win = false ∧ newWin g s a0 a1 = true then winBonus else 0)

/-- Modelled from the spec (section 4.3): one simultaneous-action
resolution (`ResolveMoves` via `DoApplyActions`; the bodies are not in the
sources).  All per-agent outcomes are determined from the pre-resolution
snapshot, then applied atomically; the step counter advances by one and
the reward is accumulated. -/
def resolve (g : GridLayout) (s : EpisodeState) (a0 a1 : ActionType) : EpisodeState :=
  { p0 := newPosOf g s a0 a1 false
    p1 := newPosOf g s a0 a1 true
    o0 := newOrientOf s a0 a1 false
    o1 := newOrientOf s a0 a1 true
    smallPos := newSmallPos g s a0 a1
    bigPos := newBigPos g s a0 a1
    totalMoves := s.totalMoves + 1
    horizon := s.horizon
    initiative := s.initiative
    win := newWin g s a0 a1
    reward := stepReward g s a0 a1
    totalRewards := s.totalRewards + stepReward g s a0 a1
    status0 := statusOf g s a0 a1 false
    status1 := statusOf g s a0 a1 true
    chancePending := s.chancePending }

/-- Modelled from the spec (section 3 lifecycle / section 6): the state is
terminal when `won` is true or the step count reaches the horizon
(`IsTerminal`'s body is not in the sources). -/
def isTerminalState (s : EpisodeState) : Bool :=
  s.win || decide (s.totalMoves = s.horizon)

/-- The three mover kinds of the host interface (spec section 6
`currentMover`). -/
inductive Mover
  | chance
  | simultaneous
  | terminal
deriving DecidableEq

/-- Modelled from the spec (section 6): current mover, terminal taking
precedence as in the header's inline `CurrentPlayer`. -/
def currentMover (s : EpisodeState) : Mover :=
  if isTerminalState s = true then .terminal
  else if s.chancePending = true then .chance
  else .simultaneous

/-- Modelled from the spec (section 6): `LegalActions`'s body is not in
the sources; all four actions are always legal, no action masking. -/
def legalActions (_s : EpisodeState) (_i : Bool) : List ActionType :=
  [ActionType.turnLeft, ActionType.turnRight, ActionType.moveForward, ActionType.stay]

/-- From the header: `MaxChanceOutcomes` returns 4. -/
def maxChanceOutcomes : Nat := 4

/-- Modelled from the spec (section 4.2): `ChanceOutcomes`'s body is not
in the sources; a 4-outcome discrete distribution, each outcome with
probability 1/4. -/
def chanceOutcomes : List (Nat × ℚ) :=
  [(0, 1/4), (1, 1/4), (2, 1/4), (3, 1/4)]

/-- Modelled from the spec (section 4.2): applying the episode-start
chance outcome fixes the initiative and the symmetric starting
orientations, and leaves the chance phase; it is never re-drawn. -/
def applyChanceOutcome (s : EpisodeState) (o : Nat) : EpisodeState :=
  { s with
    chancePending := false
    initiative := decide (o % 2 = 1)
    o0 := if o / 2 = 0 then Orientation.east else Orientation.west
    o1 := if o / 2 = 0 then Orientation.west else Orientation.east }

/-- Modelled from the spec (section 3 lifecycle): a fresh episode at its
chance node, with layout-given start cells, zero step count and rewards,
unresolved statuses and the win flag down. -/
def startState (a b sm bg : Coord) (h : Nat) : EpisodeState :=
  { p0 := a
    p1 := b
    o0 := Orientation.north
    o1 := Orientation.north
    smallPos := sm
    bigPos := bg
    totalMoves := 0
    horizon := h
    initiative := false
    win := false
    reward := 0
    totalRewards := 0
    status0 := ActionStatusType.unresolved
    status1 := ActionStatusType.unresolved
    chancePending := true }

/-- Modelled from the spec (section 6): `Returns` (total return), a
length-2 vector, identical for both agents of the cooperative team. -/
def returnsOf (s : EpisodeState) : List ℚ :=
  [s.totalRewards, s.totalRewards]

/-- Modelled from the spec (section 6): `Rewards` (most recent step
reward), a length-2 vector, identical for both agents. -/
def rewardsOf (s : EpisodeState) : List ℚ :=
  [s.reward, s.reward]

/-- Iterated resolution along a list of simultaneous action pairs. -/
def runFrom (g : GridLayout) : EpisodeState → List (ActionType × ActionType) → EpisodeState
  | s, [] => s
  | s, a :: rest => runFrom g (resolve g s a.1 a.2) rest

/-- The per-turn rewards along a run. -/
def rewardsAlong (g : GridLayout) : EpisodeState → List (ActionType × ActionType) → List ℚ
  | _, [] => []
  | s, a :: rest => stepReward g s a.1 a.2 :: rewardsAlong g (resolve g s a.1 a.2) rest

/-- How many turns of a run include the win bonus in their reward. -/
def bonusCount (g : GridLayout) : EpisodeState → List (ActionType × ActionType) → Nat
  | _, [] => 0
  | s, a :: rest =>
    (if s.win = false ∧ (resolve g s a.1 a.2).win = true then 1 else 0)
      + bonusCount g (resolve g s a.1 a.2) rest

/-- States reachable from `s0` by resolved turns. -/
inductive Reachable (g : GridLayout) (s0 : EpisodeState) : EpisodeState → Prop
  | refl : Reachable g s0 s0
  | step {s : EpisodeState} (a0 a1 : ActionType) :
      Reachable g s0 s → Reachable g s0 (resolve g s a0 a1)

/-- The mutual-exclusion and placement invariant (spec section 3): the two
agents and the two movable objects occupy pairwise-distinct, in-bounds,
non-`Wall` cells. -/
def Inv (g : GridLayout) (s : EpisodeState) : Prop :=
  s.p0 ≠ s.p1 ∧ s.p0 ≠ s.smallPos ∧ s.p0 ≠ s.bigPos
    ∧ s.p1 ≠ s.smallPos ∧ s.p1 ≠ s.bigPos ∧ s.smallPos ≠ s.bigPos
    ∧ inB g s.p0 = true ∧ inB g s.p1 = true
    ∧ inB g s.smallPos = true ∧ inB g s.bigPos = true
    ∧ g.cell s.p0 ≠ CellKind.Wall ∧ g.cell s.p1 ≠ CellKind.Wall
    ∧ g.cell s.smallPos ≠ CellKind.Wall ∧ g.cell s.bigPos ≠ CellKind.Wall

instance (g : GridLayout) (s : EpisodeState) : Decidable (Inv g s) := by
  unfold Inv
  infer_instance

/-! ### Geometry lemmas -/

theorem stepTo_ne_self (p : Coord) (o : Orientation) : stepTo p o ≠ p := by
  obtain ⟨x, y⟩ := p
  cases o <;> (intro hc; simp only [stepTo, delta, Prod.mk.injEq] at hc; omega)

theorem stepTo_inj {p q : Coord} {o : Orientation} (h : stepTo p o = stepTo q o) : p = q := by
  obtain ⟨x, y⟩ := p
  obtain ⟨z, w⟩ := q
  cases o <;>
    (simp only [stepTo, delta, Prod.mk.injEq] at h
     exact Prod.mk.injEq .. ▸ ⟨by omega, by omega⟩)

theorem stepTo_stepTo_ne (p : Coord) (o : Orientation) : stepTo (stepTo p o) o ≠ p := by
  obtain ⟨x, y⟩ := p
  cases o <;> (intro hc; simp only [stepTo, delta, Prod.mk.injEq] at hc; omega)

theorem cand_ne_pos (s : EpisodeState) (i : Bool) : cand s i ≠ pos s i :=
  stepTo_ne_self _ _

theorem pos_ne_pos_not {s : EpisodeState} (h : s.p0 ≠ s.p1) (i : Bool) :
    pos s i ≠ pos s (!i) := by
  cases i <;> simp [pos] <;> [exact h; exact fun hh => h hh.symm]

/-! ### Intent inversion lemmas -/

theorem intent_idle {g : GridLayout} {s : EpisodeState} {a0 a1 : ActionType} {i : Bool}
    (h : act a0 a1 i ≠ ActionType.moveForward) : intentOf g s a0 a1 i = .idle := by
  unfold intentOf
  simp [h]

theorem move_inv {g : GridLayout} {s : EpisodeState} {a0 a1 : ActionType} {i : Bool} {d : Coord}
    (h : intentOf g s a0 a1 i = .move d) :
    d = cand s i ∧ inB g d = true ∧ g.cell d ≠ CellKind.Wall
      ∧ d ≠ s.bigPos ∧ d ≠ s.smallPos ∧ act a0 a1 i = ActionType.moveForward := by
  unfold intentOf at h
  split_ifs at h with h1 h2 h3 h4 h5 h6 <;> simp_all

theorem pushSmall_inv {g : GridLayout} {s : EpisodeState} {a0 a1 : ActionType} {i : Bool}
    {d b : Coord} (h : intentOf g s a0 a1 i = .pushSmall d b) :
    d = cand s i ∧ d = s.smallPos ∧ b = stepTo s.smallPos (orient s i)
      ∧ inB g b = true ∧ g.cell b ≠ CellKind.Wall ∧ b ≠ pos s (!i) ∧ b ≠ s.bigPos
      ∧ act a0 a1 i = ActionType.moveForward
      ∧ inB g d = true ∧ g.cell d ≠ CellKind.Wall := by
  unfold intentOf at h
  split_ifs at h with h1 h2 h3 h4 h5 h6 <;> simp_all
  obtain ⟨hsd, hsb⟩ := h
  subst hsd
  subst hsb
  exact ⟨rfl, h6.1, h6.2.1, h6.2.2.1, h6.2.2.2⟩

theorem pushBig_inv {g : GridLayout} {s : EpisodeState} {a0 a1 : ActionType} {i : Bool}
    {d b : Coord} (h : intentOf g s a0 a1 i = .pushBig d b) :
    d = cand s i ∧ d = s.bigPos ∧ cand s (!i) = s.bigPos
      ∧ orient s i = orient s (!i)
      ∧ act a0 a1 i = ActionType.moveForward ∧ act a0 a1 (!i) = ActionType.moveForward
      ∧ b = stepTo s.bigPos (orient s i)
      ∧ inB g b = true ∧ g.cell b ≠ CellKind.Wall ∧ b ≠ s.smallPos
      ∧ inB g d = true ∧ g.cell d ≠ CellKind.Wall := by
  unfold intentOf at h
  split_ifs at h with h1 h2 h3 h4 <;> simp_all
  obtain ⟨hbd, hbb⟩ := h
  subst hbd
  subst hbb
  exact ⟨rfl, h4.1, h4.2.1, h4.2.2⟩

/-! ### Destination and claim lemmas -/

theorem destOf_some_inv {g : GridLayout} {s : EpisodeState} {a0 a1 : ActionType} {i : Bool}
    {d : Coord} (h : destOf (intentOf g s a0 a1 i) = some d) :
    d = cand s i ∧ act a0 a1 i = ActionType.moveForward
      ∧ inB g d = true ∧ g.cell d ≠ CellKind.Wall := by
  cases hI : intentOf g s a0 a1 i with
  | idle => rw [hI] at h; simp [destOf] at h
  | blocked => rw [hI] at h; simp [destOf] at h
  | move d0 =>
    rw [hI] at h; simp only [destOf, Option.some.injEq] at h
    subst h
    obtain ⟨h1, h2, h3, _, _, h6⟩ := move_inv hI
    exact ⟨h1, h6, h2, h3⟩
  | pushSmall d0 b0 =>
    rw [hI] at h; simp only [destOf, Option.some.injEq] at h
    subst h
    obtain ⟨h1, _, _, _, _, _, _, h8, h9, h10⟩ := pushSmall_inv hI
    exact ⟨h1, h8, h9, h10⟩
  | pushBig d0 b0 =>
    rw [hI] at h; simp only [destOf, Option.some.injEq] at h
    subst h
    obtain ⟨h1, _, _, _, h5, _, _, _, _, _, h11, h12⟩ := pushBig_inv hI
    exact ⟨h1, h5, h11, h12⟩

theorem claims_ne_own {g : GridLayout} {s : EpisodeState} {a0 a1 : ActionType} {i : Bool}
    {c : Coord} (h : c ∈ claimsOf (intentOf g s a0 a1 i)) : c ≠ pos s i := by
  cases hI : intentOf g s a0 a1 i with
  | idle => rw [hI] at h; simp [claimsOf] at h
  | blocked => rw [hI] at h; simp [claimsOf] at h
  | move d0 =>
    rw [hI] at h; simp only [claimsOf, List.mem_singleton] at h
    subst h
    rw [(move_inv hI).1]
    exact cand_ne_pos s i
  | pushSmall d0 b0 =>
    rw [hI] at h
    obtain ⟨h1, h2, h3, _⟩ := pushSmall_inv hI
    simp only [claimsOf, List.mem_cons, List.mem_singleton, List.not_mem_nil, or_false] at h
    rcases h with h | h
    · subst h; rw [h1]; exact cand_ne_pos s i
    · subst h
      rw [h3, ← h2, h1]
      unfold cand
      exact stepTo_stepTo_ne _ _
  | pushBig d0 b0 =>
    rw [hI] at h
    obtain ⟨h1, h2, _, _, _, _, h7, _⟩ := pushBig_inv hI
    simp only [claimsOf, List.mem_cons, List.mem_singleton, List.not_mem_nil, or_false] at h
    rcases h with h | h
    · subst h; rw [h1]; exact cand_ne_pos s i
    · subst h
      rw [h7, ← h2, h1]
      unfold cand
      exact stepTo_stepTo_ne _ _

theorem dest_mem_claims {g : GridLayout} {s : EpisodeState} {a0 a1 : ActionType} {i : Bool}
    {d : Coord} (h : destOf (intentOf g s a0 a1 i) = some d) :
    d ∈ claimsOf (intentOf g s a0 a1 i) := by
  cases hI : intentOf g s a0 a1 i <;> rw [hI] at h <;> simp [destOf] at h <;>
    simp [claimsOf, h]

theorem no_pushBig {g : GridLayout} {s : EpisodeState} {a0 a1 : ActionType} {i : Bool}
    (h01 : s.p0 ≠ s.p1) : isPushBig (intentOf g s a0 a1 i) = false := by
  cases hI : intentOf g s a0 a1 i with
  | pushBig d0 b0 =>
    obtain ⟨_, h2, h3, h4, _⟩ := pushBig_inv hI
    have h1 : cand s i = s.bigPos := h2 ▸ (pushBig_inv hI).1.symm
    exfalso
    apply pos_ne_pos_not h01 i
    apply stepTo_inj (o := orient s i)
    unfold cand at h1 h3
    rw [h1, h4, h3]
  | idle => simp [isPushBig]
  | blocked => simp [isPushBig]
  | move d0 => simp [isPushBig]
  | pushSmall d0 b0 => simp [isPushBig]

theorem overlaps_iff {xs ys : List Coord} :
    overlaps xs ys = true ↔ ∃ c, c ∈ xs ∧ c ∈ ys := by
  simp [overlaps, List.any_eq_true]

theorem dest_vacate_move {g : GridLayout} {s : EpisodeState} {a0 a1 : ActionType} {i : Bool}
    (hsm : s.smallPos ≠ pos s (!i)) (hbg : s.bigPos ≠ pos s (!i))
    (hd : destOf (intentOf g s a0 a1 i) = some (pos s (!i))) :
    intentOf g s a0 a1 i = .move (pos s (!i)) := by
  cases hI : intentOf g s a0 a1 i with
  | idle => rw [hI] at hd; simp [destOf] at hd
  | blocked => rw [hI] at hd; simp [destOf] at hd
  | move d0 =>
    rw [hI] at hd
    simp only [destOf, Option.some.injEq] at hd
    rw [hd]
  | pushSmall d0 b0 =>
    rw [hI] at hd
    simp only [destOf, Option.some.injEq] at hd
    exact absurd ((pushSmall_inv hI).2.1.symm.trans hd) hsm
  | pushBig d0 b0 =>
    rw [hI] at hd
    simp only [destOf, Option.some.injEq] at hd
    exact absurd ((pushBig_inv hI).2.1.symm.trans hd) hbg

/-! ### Final-success lemmas -/

theorem finalOk_not_mf {g : GridLayout} {s : EpisodeState} {a0 a1 : ActionType} {i : Bool}
    (h : act a0 a1 i ≠ ActionType.moveForward) : finalOk g s a0 a1 i = true := by
  unfold finalOk
  simp [h]

theorem finalOk_none {g : GridLayout} {s : EpisodeState} {a0 a1 : ActionType} {i : Bool}
    (hmf : act a0 a1 i = ActionType.moveForward)
    (h : destOf (intentOf g s a0 a1 i) = Option.none) : finalOk g s a0 a1 i = false := by
  unfold finalOk
  simp [hmf, h]

theorem mf_of_some {g : GridLayout} {s : EpisodeState} {a0 a1 : ActionType} {i : Bool}
    {d : Coord} (h : destOf (intentOf g s a0 a1 i) = some d) :
    act a0 a1 i = ActionType.moveForward :=
  (destOf_some_inv h).2.1

theorem finalOk_vacate_true {g : GridLayout} {s : EpisodeState} {a0 a1 : ActionType} {i : Bool}
    {e : Coord} (hd : destOf (intentOf g s a0 a1 i) = some (pos s (!i)))
    (ho : destOf (intentOf g s a0 a1 (!i)) = some e) (he : e ≠ pos s i) :
    finalOk g s a0 a1 i = true := by
  unfold finalOk
  simp [mf_of_some hd, hd, ho, he]

theorem finalOk_vacate_inv {g : GridLayout} {s : EpisodeState} {a0 a1 : ActionType} {i : Bool}
    (hok : finalOk g s a0 a1 i = true)
    (hd : destOf (intentOf g s a0 a1 i) = some (pos s (!i))) :
    ∃ e, destOf (intentOf g s a0 a1 (!i)) = some e ∧ e ≠ pos s i := by
  cases ho : destOf (intentOf g s a0 a1 (!i)) with
  | none =>
    unfold finalOk at hok
    simp [mf_of_some hd, hd, ho] at hok
  | some e =>
    unfold finalOk at hok
    simp [mf_of_some hd, hd, ho] at hok
    exact ⟨e, rfl, hok⟩

theorem finalOk_clear_true {g : GridLayout} {s : EpisodeState} {a0 a1 : ActionType} {i : Bool}
    {d : Coord} (hd : destOf (intentOf g s a0 a1 i) = some d) (hne : d ≠ pos s (!i))
    (ho : destOf (intentOf g s a0 a1 (!i)) = Option.none) :
    finalOk g s a0 a1 i = true := by
  unfold finalOk
  simp [mf_of_some hd, hd, hne, ho]

theorem finalOk_noconf_true {g : GridLayout} {s : EpisodeState} {a0 a1 : ActionType} {i : Bool}
    {d e : Coord} (hd : destOf (intentOf g s a0 a1 i) = some d) (hne : d ≠ pos s (!i))
    (ho : destOf (intentOf g s a0 a1 (!i)) = some e)
    (hov : overlaps (claimsOf (intentOf g s a0 a1 i)) (claimsOf (intentOf g s a0 a1 (!i))) = false) :
    finalOk g s a0 a1 i = true := by
  unfold finalOk
  simp [mf_of_some hd, hd, hne, ho, hov]

theorem finalOk_priority {g : GridLayout} {s : EpisodeState} {a0 a1 : ActionType} {i : Bool}
    {d e : Coord} (hd : destOf (intentOf g s a0 a1 i) = some d) (hne : d ≠ pos s (!i))
    (ho : destOf (intentOf g s a0 a1 (!i)) = some e)
    (hov : overlaps (claimsOf (intentOf g s a0 a1 i)) (claimsOf (intentOf g s a0 a1 (!i))) = true)
    (hnb : ¬(isPushBig (intentOf g s a0 a1 i) = true ∧ isPushBig (intentOf g s a0 a1 (!i)) = true)) :
    finalOk g s a0 a1 i = decide (i = s.initiative) := by
  unfold finalOk
  simp [mf_of_some hd, hd, hne, ho, hov, hnb]

theorem finalOk_conflict_inv {g : GridLayout} {s : EpisodeState} {a0 a1 : ActionType} {i : Bool}
    {d e : Coord} (hok : finalOk g s a0 a1 i = true)
    (hd : destOf (intentOf g s a0 a1 i) = some d) (hne : d ≠ pos s (!i))
    (ho : destOf (intentOf g s a0 a1 (!i)) = some e)
    (hov : overlaps (claimsOf (intentOf g s a0 a1 i)) (claimsOf (intentOf g s a0 a1 (!i))) = true)
    (hnb : ¬(isPushBig (intentOf g s a0 a1 i) = true ∧ isPushBig (intentOf g s a0 a1 (!i)) = true)) :
    i = s.initiative := by
  rw [finalOk_priority hd hne ho hov hnb] at hok
  exact of_decide_eq_true hok

/-! ### Interaction lemmas -/

theorem overlaps_false_iff {xs ys : List Coord} :
    overlaps xs ys = false ↔ ∀ c ∈ xs, c ∉ ys := by
  simp [overlaps]

theorem vacate_claims_disjoint {g : GridLayout} {s : EpisodeState} {a0 a1 : ActionType} {i : Bool}
    (hsm : s.smallPos ≠ pos s (!i)) (hbg : s.bigPos ≠ pos s (!i))
    (hd : destOf (intentOf g s a0 a1 i) = some (pos s (!i))) :
    overlaps (claimsOf (intentOf g s a0 a1 i)) (claimsOf (intentOf g s a0 a1 (!i))) = false := by
  rw [dest_vacate_move hsm hbg hd, overlaps_false_iff]
  intro c hc
  simp only [claimsOf, List.mem_singleton] at hc
  subst hc
  intro hmem
  exact claims_ne_own hmem rfl

theorem vacator_ok {g : GridLayout} {s : EpisodeState} {a0 a1 : ActionType} {i : Bool}
    (hsm : s.smallPos ≠ pos s (!i)) (hbg : s.bigPos ≠ pos s (!i))
    (hok : finalOk g s a0 a1 i = true)
    (hd : destOf (intentOf g s a0 a1 i) = some (pos s (!i))) :
    finalOk g s a0 a1 (!i) = true := by
  obtain ⟨e, ho, he⟩ := finalOk_vacate_inv hok hd
  have hdj := vacate_claims_disjoint hsm hbg hd
  have hdj2 : overlaps (claimsOf (intentOf g s a0 a1 (!i))) (claimsOf (intentOf g s a0 a1 i)) = false := by
    rw [overlaps_false_iff] at hdj ⊢
    intro c hc hmem
    exact hdj c hmem hc
  have hnn : (!(!i)) = i := Bool.not_not i
  have hd2 : destOf (intentOf g s a0 a1 (!(!i))) = some (pos s (!i)) := by
    rw [hnn]
    exact hd
  have he2 : e ≠ pos s (!(!i)) := by
    rw [hnn]
    exact he
  have hdj3 : overlaps (claimsOf (intentOf g s a0 a1 (!i)))
      (claimsOf (intentOf g s a0 a1 (!(!i)))) = false := by
    rw [hnn]
    exact hdj2
  exact finalOk_noconf_true (i := !i) ho he2 hd2 hdj3

theorem not_both_overlap {g : GridLayout} {s : EpisodeState} {a0 a1 : ActionType}
    (h01 : s.p0 ≠ s.p1)
    (hsm0 : s.smallPos ≠ s.p0) (hsm1 : s.smallPos ≠ s.p1)
    (hbg0 : s.bigPos ≠ s.p0) (hbg1 : s.bigPos ≠ s.p1)
    (hok0 : finalOk g s a0 a1 false = true) (hok1 : finalOk g s a0 a1 true = true)
    {d0 d1 : Coord}
    (hd0 : destOf (intentOf g s a0 a1 false) = some d0)
    (hd1 : destOf (intentOf g s a0 a1 true) = some d1)
    (hov : overlaps (claimsOf (intentOf g s a0 a1 false)) (claimsOf (intentOf g s a0 a1 true)) = true) :
    False := by
  by_cases hc0 : d0 = pos s true
  · have hdj : overlaps (claimsOf (intentOf g s a0 a1 false))
        (claimsOf (intentOf g s a0 a1 true)) = false :=
      vacate_claims_disjoint (i := false) hsm1 hbg1 (hc0 ▸ hd0)
    rw [hdj] at hov
    cases hov
  · by_cases hc1 : d1 = pos s false
    · have hdj : overlaps (claimsOf (intentOf g s a0 a1 true))
          (claimsOf (intentOf g s a0 a1 false)) = false :=
        vacate_claims_disjoint (i := true) hsm0 hbg0 (hc1 ▸ hd1)
      rw [overlaps_false_iff] at hdj
      obtain ⟨c, hcx, hcy⟩ := overlaps_iff.mp hov
      exact hdj c hcy hcx
    · have hnb0 : ¬(isPushBig (intentOf g s a0 a1 false) = true
          ∧ isPushBig (intentOf g s a0 a1 true) = true) := by
        rw [no_pushBig h01]
        simp
      have hnb1 : ¬(isPushBig (intentOf g s a0 a1 true) = true
          ∧ isPushBig (intentOf g s a0 a1 false) = true) := by
        rw [no_pushBig h01]
        simp
      have hov2 : overlaps (claimsOf (intentOf g s a0 a1 true)) (claimsOf (intentOf g s a0 a1 false)) = true := by
        rw [overlaps_iff] at hov ⊢
        obtain ⟨c, hcx, hcy⟩ := hov
        exact ⟨c, hcy, hcx⟩
      have he0 := finalOk_conflict_inv (i := false) hok0 hd0 hc0 hd1 hov hnb0
      have he1 := finalOk_conflict_inv (i := true) hok1 hd1 hc1 hd0 hov2 hnb1
      rw [← he0] at he1
      cases he1

/-! ### Post-state case lemmas -/

theorem newPos_spec (g : GridLayout) (s : EpisodeState) (a0 a1 : ActionType) (i : Bool) :
    (newPosOf g s a0 a1 i = pos s i
        ∧ ¬(finalOk g s a0 a1 i = true ∧ (destOf (intentOf g s a0 a1 i)).isSome = true))
      ∨ (finalOk g s a0 a1 i = true
        ∧ destOf (intentOf g s a0 a1 i) = some (newPosOf g s a0 a1 i)
        ∧ newPosOf g s a0 a1 i = cand s i) := by
  unfold newPosOf
  cases hd : destOf (intentOf g s a0 a1 i) with
  | none => exact Or.inl ⟨rfl, by simp [hd]⟩
  | some d =>
    cases hok : finalOk g s a0 a1 i with
    | false => exact Or.inl ⟨by simp, by simp [hok]⟩
    | true => exact Or.inr ⟨rfl, by simp [hd], by simp [(destOf_some_inv hd).1]⟩

theorem smallDest_some_inv {I : Intent} {b : Coord} (h : smallDest I = some b) :
    ∃ d, I = .pushSmall d b := by
  cases I with
  | pushSmall d0 b0 =>
    simp only [smallDest, Option.some.injEq] at h
    exact ⟨d0, by rw [h]⟩
  | idle => simp [smallDest] at h
  | blocked => simp [smallDest] at h
  | move d0 => simp [smallDest] at h
  | pushBig d0 b0 => simp [smallDest] at h

theorem bigDest_some_inv {I : Intent} {b : Coord} (h : bigDest I = some b) :
    ∃ d, I = .pushBig d b := by
  cases I with
  | pushBig d0 b0 =>
    simp only [bigDest, Option.some.injEq] at h
    exact ⟨d0, by rw [h]⟩
  | idle => simp [bigDest] at h
  | blocked => simp [bigDest] at h
  | move d0 => simp [bigDest] at h
  | pushSmall d0 b0 => simp [bigDest] at h

theorem effSmallPush_some_inv {g : GridLayout} {s : EpisodeState} {a0 a1 : ActionType} {i : Bool}
    {b : Coord} (h : effSmallPush g s a0 a1 i = some b) :
    finalOk g s a0 a1 i = true ∧ ∃ d, intentOf g s a0 a1 i = .pushSmall d b := by
  unfold effSmallPush at h
  split_ifs at h with hok
  exact ⟨hok, smallDest_some_inv h⟩

theorem effBigPush_some_inv {g : GridLayout} {s : EpisodeState} {a0 a1 : ActionType} {i : Bool}
    {b : Coord} (h : effBigPush g s a0 a1 i = some b) :
    finalOk g s a0 a1 i = true ∧ ∃ d, intentOf g s a0 a1 i = .pushBig d b := by
  unfold effBigPush at h
  split_ifs at h with hok
  exact ⟨hok, bigDest_some_inv h⟩

theorem effBigPush_none {g : GridLayout} {s : EpisodeState} {a0 a1 : ActionType}
    (h01 : s.p0 ≠ s.p1) (i : Bool) : effBigPush g s a0 a1 i = Option.none := by
  cases hE : effBigPush g s a0 a1 i with
  | none => rfl
  | some b =>
    obtain ⟨hok, d, hI⟩ := effBigPush_some_inv hE
    have hnb := @no_pushBig g s a0 a1 i h01
    rw [hI] at hnb
    simp [isPushBig] at hnb

theorem newBigPos_eq {g : GridLayout} {s : EpisodeState} {a0 a1 : ActionType}
    (h01 : s.p0 ≠ s.p1) : newBigPos g s a0 a1 = s.bigPos := by
  unfold newBigPos
  rw [effBigPush_none h01 false, effBigPush_none h01 true]

theorem newSmall_cases (g : GridLayout) (s : EpisodeState) (a0 a1 : ActionType) :
    newSmallPos g s a0 a1 = s.smallPos ∨
      ∃ i d, finalOk g s a0 a1 i = true
        ∧ intentOf g s a0 a1 i = .pushSmall d (newSmallPos g s a0 a1) := by
  unfold newSmallPos
  cases h0 : effSmallPush g s a0 a1 false with
  | some b =>
    obtain ⟨hok, d, hI⟩ := effSmallPush_some_inv h0
    exact Or.inr ⟨false, d, hok, hI⟩
  | none =>
    cases h1 : effSmallPush g s a0 a1 true with
    | some b =>
      obtain ⟨hok, d, hI⟩ := effSmallPush_some_inv h1
      exact Or.inr ⟨true, d, hok, hI⟩
    | none => exact Or.inl rfl

/-! ### Resolve projections -/

theorem resolve_p0 (g : GridLayout) (s : EpisodeState) (a0 a1 : ActionType) :
    (resolve g s a0 a1).p0 = newPosOf g s a0 a1 false := rfl

theorem resolve_p1 (g : GridLayout) (s : EpisodeState) (a0 a1 : ActionType) :
    (resolve g s a0 a1).p1 = newPosOf g s a0 a1 true := rfl

theorem resolve_smallPos (g : GridLayout) (s : EpisodeState) (a0 a1 : ActionType) :
    (resolve g s a0 a1).smallPos = newSmallPos g s a0 a1 := rfl

theorem resolve_bigPos (g : GridLayout) (s : EpisodeState) (a0 a1 : ActionType) :
    (resolve g s a0 a1).bigPos = newBigPos g s a0 a1 := rfl

theorem resolve_status0 (g : GridLayout) (s : EpisodeState) (a0 a1 : ActionType) :
    (resolve g s a0 a1).status0 = statusOf g s a0 a1 false := rfl

theorem resolve_status1 (g : GridLayout) (s : EpisodeState) (a0 a1 : ActionType) :
    (resolve g s a0 a1).status1 = statusOf g s a0 a1 true := rfl

theorem newPos_move {g : GridLayout} {s : EpisodeState} {a0 a1 : ActionType} {i : Bool}
    {d : Coord} (hok : finalOk g s a0 a1 i = true)
    (hd : destOf (intentOf g s a0 a1 i) = some d) : newPosOf g s a0 a1 i = d := by
  unfold newPosOf
  rw [hd]
  simp [hok]

theorem newPos_stay {g : GridLayout} {s : EpisodeState} {a0 a1 : ActionType} {i : Bool}
    (h : finalOk g s a0 a1 i = false) : newPosOf g s a0 a1 i = pos s i := by
  unfold newPosOf
  cases hd : destOf (intentOf g s a0 a1 i) with
  | none => rfl
  | some d => simp [h]

/-! ### Distinctness of post-state positions -/

theorem not_both_smallPush {g : GridLayout} {s : EpisodeState} {a0 a1 : ActionType}
    (h01 : s.p0 ≠ s.p1)
    (hsm0 : s.smallPos ≠ s.p0) (hsm1 : s.smallPos ≠ s.p1)
    (hbg0 : s.bigPos ≠ s.p0) (hbg1 : s.bigPos ≠ s.p1)
    {d0 b0 d1 b1 : Coord}
    (hI0 : intentOf g s a0 a1 false = .pushSmall d0 b0)
    (hI1 : intentOf g s a0 a1 true = .pushSmall d1 b1)
    (hok0 : finalOk g s a0 a1 false = true) (hok1 : finalOk g s a0 a1 true = true) :
    False := by
  have hd0 : destOf (intentOf g s a0 a1 false) = some d0 := by rw [hI0]; rfl
  have hd1 : destOf (intentOf g s a0 a1 true) = some d1 := by rw [hI1]; rfl
  have e0 : d0 = s.smallPos := (pushSmall_inv hI0).2.1
  have e1 : d1 = s.smallPos := (pushSmall_inv hI1).2.1
  apply not_both_overlap h01 hsm0 hsm1 hbg0 hbg1 hok0 hok1 hd0 hd1
  rw [overlaps_iff]
  refine ⟨s.smallPos, ?_, ?_⟩
  · rw [← e0]
    exact dest_mem_claims hd0
  · rw [← e1]
    exact dest_mem_claims hd1

theorem newSmall_of_push {g : GridLayout} {s : EpisodeState} {a0 a1 : ActionType} {i : Bool}
    {d b : Coord} (h01 : s.p0 ≠ s.p1)
    (hsm0 : s.smallPos ≠ s.p0) (hsm1 : s.smallPos ≠ s.p1)
    (hbg0 : s.bigPos ≠ s.p0) (hbg1 : s.bigPos ≠ s.p1)
    (hok : finalOk g s a0 a1 i = true) (hI : intentOf g s a0 a1 i = .pushSmall d b) :
    newSmallPos g s a0 a1 = b := by
  cases i with
  | false =>
    have he : effSmallPush g s a0 a1 false = some b := by
      unfold effSmallPush
      rw [if_pos hok, hI]
      rfl
    unfold newSmallPos
    rw [he]
  | true =>
    have he : effSmallPush g s a0 a1 true = some b := by
      unfold effSmallPush
      rw [if_pos hok, hI]
      rfl
    have he0 : effSmallPush g s a0 a1 false = Option.none := by
      cases h0 : effSmallPush g s a0 a1 false with
      | none => rfl
      | some b0 =>
        obtain ⟨hok0, d0, hI0⟩ := effSmallPush_some_inv h0
        exact absurd (not_both_smallPush h01 hsm0 hsm1 hbg0 hbg1 hI0 hI hok0 hok) not_false
    unfold newSmallPos
    rw [he0, he]

theorem newPos_ne_newPos {g : GridLayout} {s : EpisodeState} {a0 a1 : ActionType}
    (h01 : s.p0 ≠ s.p1)
    (hsm0 : s.smallPos ≠ s.p0) (hsm1 : s.smallPos ≠ s.p1)
    (hbg0 : s.bigPos ≠ s.p0) (hbg1 : s.bigPos ≠ s.p1) :
    newPosOf g s a0 a1 false ≠ newPosOf g s a0 a1 true := by
  rcases newPos_spec g s a0 a1 false with ⟨e0, hn0⟩ | ⟨hok0, hd0, hc0⟩ <;>
    rcases newPos_spec g s a0 a1 true with ⟨e1, hn1⟩ | ⟨hok1, hd1, hc1⟩
  · rw [e0, e1]
    exact h01
  · -- agent 0 stays, agent 1 moves: if they collide, agent 1 entered p0,
    -- so agent 0 must have been a successful vacator, contradicting hn0.
    rw [e0]
    intro hEq
    have hd1v : destOf (intentOf g s a0 a1 true) = some (pos s (!true)) :=
      hd1.trans (congrArg some hEq.symm)
    have hokv : finalOk g s a0 a1 (!true) = true := vacator_ok hsm0 hbg0 hok1 hd1v
    obtain ⟨e, hde, _⟩ := finalOk_vacate_inv hok1 hd1v
    have hde2 : destOf (intentOf g s a0 a1 false) = some e := hde
    exact hn0 ⟨hokv, by rw [hde2]; rfl⟩
  · rw [e1]
    intro hEq
    have hd0v : destOf (intentOf g s a0 a1 false) = some (pos s (!false)) :=
      hd0.trans (congrArg some hEq)
    have hokv : finalOk g s a0 a1 (!false) = true := vacator_ok hsm1 hbg1 hok0 hd0v
    obtain ⟨e, hde, _⟩ := finalOk_vacate_inv hok0 hd0v
    have hde2 : destOf (intentOf g s a0 a1 true) = some e := hde
    exact hn1 ⟨hokv, by rw [hde2]; rfl⟩
  · intro hEq
    apply not_both_overlap h01 hsm0 hsm1 hbg0 hbg1 hok0 hok1 hd0 hd1
    rw [overlaps_iff]
    refine ⟨newPosOf g s a0 a1 false, dest_mem_claims hd0, ?_⟩
    rw [hEq]
    exact dest_mem_claims hd1

theorem newPos_ne_newSmall {g : GridLayout} {s : EpisodeState} {a0 a1 : ActionType}
    (h01 : s.p0 ≠ s.p1)
    (hsm0 : s.smallPos ≠ s.p0) (hsm1 : s.smallPos ≠ s.p1)
    (hbg0 : s.bigPos ≠ s.p0) (hbg1 : s.bigPos ≠ s.p1) (i : Bool) :
    newPosOf g s a0 a1 i ≠ newSmallPos g s a0 a1 := by
  rcases newSmall_cases g s a0 a1 with hsmEq | ⟨w, d, hokw, hIw⟩
  · rw [hsmEq]
    rcases newPos_spec g s a0 a1 i with ⟨e0, _⟩ | ⟨hok, hd, _⟩
    · rw [e0]
      cases i
      · exact fun h => hsm0 h.symm
      · exact fun h => hsm1 h.symm
    · cases hI : intentOf g s a0 a1 i with
      | idle => rw [hI] at hd; cases hd
      | blocked => rw [hI] at hd; cases hd
      | move d0 =>
        rw [hI] at hd
        simp only [destOf, Option.some.injEq] at hd
        rw [← hd]
        exact (move_inv hI).2.2.2.2.1
      | pushSmall d0 b0 =>
        have hnew := newSmall_of_push h01 hsm0 hsm1 hbg0 hbg1 hok hI
        have hb0 : b0 = s.smallPos := by rw [← hnew, hsmEq]
        have hbs : b0 = stepTo s.smallPos (orient s i) := (pushSmall_inv hI).2.2.1
        exact absurd (hb0 ▸ hbs).symm (stepTo_ne_self s.smallPos (orient s i))
      | pushBig d0 b0 =>
        have hnb := @no_pushBig g s a0 a1 i h01
        rw [hI] at hnb
        simp [isPushBig] at hnb
  · have hpi := pushSmall_inv hIw
    by_cases hiw : i = w
    · subst hiw
      have hdw : destOf (intentOf g s a0 a1 i) = some d := by rw [hIw]; rfl
      rw [newPos_move hokw hdw, hpi.2.1, hpi.2.2.1]
      exact fun h => stepTo_ne_self s.smallPos (orient s i) h.symm
    · have hiw2 : i = !w := by cases i <;> cases w <;> simp_all
      rcases newPos_spec g s a0 a1 i with ⟨e0, _⟩ | ⟨hok, hd, _⟩
      · rw [e0]
        have hxx : newSmallPos g s a0 a1 ≠ pos s (!w) := hpi.2.2.2.2.2.1
        rw [← hiw2] at hxx
        exact fun h => hxx h.symm
      · intro hEq
        have hdw : destOf (intentOf g s a0 a1 w) = some d := by rw [hIw]; rfl
        have hmw : newSmallPos g s a0 a1 ∈ claimsOf (intentOf g s a0 a1 w) := by
          rw [hIw]
          simp [claimsOf]
        have hmi : newSmallPos g s a0 a1 ∈ claimsOf (intentOf g s a0 a1 i) := by
          rw [← hEq]
          exact dest_mem_claims hd
        cases w
        · rw [show i = true from hiw2] at hok hd hmi
          exact not_both_overlap h01 hsm0 hsm1 hbg0 hbg1 hokw hok hdw hd
            (overlaps_iff.mpr ⟨newSmallPos g s a0 a1, hmw, hmi⟩)
        · rw [show i = false from hiw2] at hok hd hmi
          exact not_both_overlap h01 hsm0 hsm1 hbg0 hbg1 hok hokw hd hdw
            (overlaps_iff.mpr ⟨newSmallPos g s a0 a1, hmi, hmw⟩)

theorem newPos_ne_newBig {g : GridLayout} {s : EpisodeState} {a0 a1 : ActionType}
    (h01 : s.p0 ≠ s.p1) (h0b : s.p0 ≠ s.bigPos) (h1b : s.p1 ≠ s.bigPos)
    (hsb : s.smallPos ≠ s.bigPos) (i : Bool) :
    newPosOf g s a0 a1 i ≠ newBigPos g s a0 a1 := by
  rw [newBigPos_eq h01]
  rcases newPos_spec g s a0 a1 i with ⟨e0, _⟩ | ⟨hok, hd, _⟩
  · rw [e0]
    cases i
    · exact h0b
    · exact h1b
  · cases hI : intentOf g s a0 a1 i with
    | idle => rw [hI] at hd; cases hd
    | blocked => rw [hI] at hd; cases hd
    | move d0 =>
      rw [hI] at hd
      simp only [destOf, Option.some.injEq] at hd
      rw [← hd]
      exact (move_inv hI).2.2.2.1
    | pushSmall d0 b0 =>
      rw [hI] at hd
      simp only [destOf, Option.some.injEq] at hd
      rw [← hd, (pushSmall_inv hI).2.1]
      exact hsb
    | pushBig d0 b0 =>
      have hnb := @no_pushBig g s a0 a1 i h01
      rw [hI] at hnb
      simp [isPushBig] at hnb

theorem newSmall_ne_newBig {g : GridLayout} {s : EpisodeState} {a0 a1 : ActionType}
    (h01 : s.p0 ≠ s.p1) (hsb : s.smallPos ≠ s.bigPos) :
    newSmallPos g s a0 a1 ≠ newBigPos g s a0 a1 := by
  rw [newBigPos_eq h01]
  rcases newSmall_cases g s a0 a1 with heq | ⟨w, d, hok, hI⟩
  · rw [heq]
    exact hsb
  · exact (pushSmall_inv hI).2.2.2.2.2.2.1

theorem newPos_inB {g : GridLayout} {s : EpisodeState} {a0 a1 : ActionType} {i : Bool}
    (hp : inB g (pos s i) = true) : inB g (newPosOf g s a0 a1 i) = true := by
  rcases newPos_spec g s a0 a1 i with ⟨e0, _⟩ | ⟨hok, hd, _⟩
  · rw [e0]
    exact hp
  · exact (destOf_some_inv hd).2.2.1

theorem newPos_notWall {g : GridLayout} {s : EpisodeState} {a0 a1 : ActionType} {i : Bool}
    (hp : g.cell (pos s i) ≠ CellKind.Wall) : g.cell (newPosOf g s a0 a1 i) ≠ CellKind.Wall := by
  rcases newPos_spec g s a0 a1 i with ⟨e0, _⟩ | ⟨hok, hd, _⟩
  · rw [e0]
    exact hp
  · exact (destOf_some_inv hd).2.2.2

theorem newSmall_inB {g : GridLayout} {s : EpisodeState} {a0 a1 : ActionType}
    (hs : inB g s.smallPos = true) : inB g (newSmallPos g s a0 a1) = true := by
  rcases newSmall_cases g s a0 a1 with heq | ⟨w, d, hok, hI⟩
  · rw [heq]
    exact hs
  · exact (pushSmall_inv hI).2.2.2.1

theorem newSmall_notWall {g : GridLayout} {s : EpisodeState} {a0 a1 : ActionType}
    (hs : g.cell s.smallPos ≠ CellKind.Wall) :
    g.cell (newSmallPos g s a0 a1) ≠ CellKind.Wall := by
  rcases newSmall_cases g s a0 a1 with heq | ⟨w, d, hok, hI⟩
  · rw [heq]
    exact hs
  · exact (pushSmall_inv hI).2.2.2.2.1

/-! ### Invariant preservation -/

theorem Inv_resolve {g : GridLayout} {s : EpisodeState} (a0 a1 : ActionType)
    (hInv : Inv g s) : Inv g (resolve g s a0 a1) := by
  obtain ⟨h01, h0s, h0b, h1s, h1b, hsb, hi0, hi1, his, hib, hw0, hw1, hws, hwb⟩ := hInv
  have hsm0 : s.smallPos ≠ s.p0 := Ne.symm h0s
  have hsm1 : s.smallPos ≠ s.p1 := Ne.symm h1s
  have hbg0 : s.bigPos ≠ s.p0 := Ne.symm h0b
  have hbg1 : s.bigPos ≠ s.p1 := Ne.symm h1b
  unfold Inv
  rw [resolve_p0, resolve_p1, resolve_smallPos, resolve_bigPos]
  refine ⟨newPos_ne_newPos h01 hsm0 hsm1 hbg0 hbg1,
    newPos_ne_newSmall h01 hsm0 hsm1 hbg0 hbg1 false,
    newPos_ne_newBig h01 h0b h1b hsb false,
    newPos_ne_newSmall h01 hsm0 hsm1 hbg0 hbg1 true,
    newPos_ne_newBig h01 h0b h1b hsb true,
    newSmall_ne_newBig h01 hsb,
    newPos_inB hi0, newPos_inB hi1, newSmall_inB his, ?_,
    newPos_notWall hw0, newPos_notWall hw1, newSmall_notWall hws, ?_⟩
  · rw [newBigPos_eq h01]
    exact hib
  · rw [newBigPos_eq h01]
    exact hwb

theorem Inv_reachable {g : GridLayout} {s0 s : EpisodeState}
    (hInv : Inv g s0) (hr : Reachable g s0 s) : Inv g s := by
  induction hr with
  | refl => exact hInv
  | step a0 a1 _ ih => exact Inv_resolve a0 a1 ih

/-! ### Rendering and observations -/

/-- Glyph of an agent in the full-state rendering, showing its facing
direction. -/
def orientChar : Orientation → Char
  | .north => '^'
  | .east => '>'
  | .south => 'v'
  | .west => '<'

/-- Modelled from the spec (section 6): `ToString`'s body is not in the
sources; "a human-readable full-state rendering for debugging (row-major
grid of characters)".  Every cell of the grid is rendered: agents (with
orientation glyphs), the two movable objects, walls, the goal, open
cells. -/
def renderCell (g : GridLayout) (s : EpisodeState) (p : Coord) : Char :=
  if p = s.p0 then orientChar s.o0
  else if p = s.p1 then orientChar s.o1
  else if p = s.smallPos then 'b'
  else if p = s.bigPos then 'B'
  else
    match g.cell p with
    | .Wall => '#'
    | .Goal => 'g'
    | .Open => '.'

/-- One row of the full-state rendering. -/
def rowString (g : GridLayout) (s : EpisodeState) (r : Nat) : String :=
  String.mk ((List.range g.cols.toNat).map (fun c => renderCell g s ((r : Int), (c : Int))))

/-- The row-major full-state rendering (spec section 6). -/
def stateToString (g : GridLayout) (s : EpisodeState) : String :=
  String.join ((List.range g.rows.toNat).map (fun r => rowString g s r ++ "\n"))

/-- From the header (inline body, coop_box_pushing.h lines 63-67):
`InformationState(player)` returns `"Observing player: " + player + "\n"`
followed by `ToString()`, the full-state rendering. -/
def informationState (g : GridLayout) (s : EpisodeState) (player : Nat) : String :=
  "Observing player: " ++ toString player ++ "\n" ++ stateToString g s

/-- Numeric index of an orientation. -/
def orientIdx : Orientation → ℚ
  | .north => 0
  | .east => 1
  | .south => 2
  | .west => 3

/-- Modelled from the spec (section 4.4): the numeric code of what
occupies a neighborhood cell, as seen by `viewer`: out-of-bounds and walls
alike, the own agent together with its orientation, the other agent
without its orientation, the objects, the goal, open cells. -/
def cellCode (g : GridLayout) (s : EpisodeState) (viewer : Bool) (p : Coord) : ℚ :=
  if inB g p = false then 1
  else if p = pos s viewer then 2 + orientIdx (orient s viewer)
  else if p = pos s (!viewer) then 6
  else if p = s.smallPos then 7
  else if p = s.bigPos then 8
  else
    match g.cell p with
    | .Wall => 1
    | .Goal => 9
    | .Open => 0

/-- The nine offsets of the bounded 3-by-3 egocentric neighborhood. -/
def nbhdOffsets : List Coord :=
  [(-1, -1), (-1, 0), (-1, 1), (0, -1), (0, 0), (0, 1), (1, -1), (1, 0), (1, 1)]

/-- The cells of the viewer's bounded neighborhood. -/
def neighborhood (s : EpisodeState) (viewer : Bool) : List Coord :=
  nbhdOffsets.map (fun q => ((pos s viewer).1 + q.1, (pos s viewer).2 + q.2))

/-- Modelled from the spec (section 4.4):
`InformationStateAsNormalizedVector`'s body is not in the sources; a
fixed-length egocentric encoding of the viewer's bounded neighborhood plus
scalar features (own orientation, steps remaining, win flag).  The other
agent's orientation and the grid beyond the neighborhood are not
included. -/
def observationVector (g : GridLayout) (s : EpisodeState) (viewer : Bool) : List ℚ :=
  (neighborhood s viewer).map (cellCode g s viewer)
    ++ [orientIdx (orient s viewer), ((s.horizon - s.totalMoves : Nat) : ℚ),
        if s.win = true then 1 else 0]

/-! ### Further projection helpers -/

theorem statusField_resolve (g : GridLayout) (s : EpisodeState) (a0 a1 : ActionType) (i : Bool) :
    statusField (resolve g s a0 a1) i = statusOf g s a0 a1 i := by
  cases i <;> rfl

theorem pos_resolve (g : GridLayout) (s : EpisodeState) (a0 a1 : ActionType) (i : Bool) :
    pos (resolve g s a0 a1) i = newPosOf g s a0 a1 i := by
  cases i <;> rfl

theorem act_same (a : ActionType) (i : Bool) : act a a i = a := by
  cases i <;> rfl

theorem resolve_win (g : GridLayout) (s : EpisodeState) (a0 a1 : ActionType) :
    (resolve g s a0 a1).win = newWin g s a0 a1 := rfl

theorem resolve_win_true {g : GridLayout} {s : EpisodeState} {a0 a1 : ActionType}
    (h : s.win = true) : (resolve g s a0 a1).win = true := by
  rw [resolve_win]
  unfold newWin
  rw [h]
  rfl

theorem runFrom_win_true {g : GridLayout} :
    ∀ (acts : List (ActionType × ActionType)) (s : EpisodeState),
      s.win = true → (runFrom g s acts).win = true
  | [], _, h => h
  | _ :: rest, s, h => runFrom_win_true rest _ (resolve_win_true h)

theorem runFrom_totalRewards {g : GridLayout} :
    ∀ (acts : List (ActionType × ActionType)) (s : EpisodeState),
      (runFrom g s acts).totalRewards = s.totalRewards + (rewardsAlong g s acts).sum
  | [], s => by simp [runFrom, rewardsAlong]
  | a :: rest, s => by
    show (runFrom g (resolve g s a.1 a.2) rest).totalRewards = _
    rw [runFrom_totalRewards rest (resolve g s a.1 a.2)]
    show s.totalRewards + stepReward g s a.1 a.2 + (rewardsAlong g (resolve g s a.1 a.2) rest).sum = _
    rw [show rewardsAlong g s (a :: rest)
        = stepReward g s a.1 a.2 :: rewardsAlong g (resolve g s a.1 a.2) rest from rfl]
    rw [List.sum_cons]
    ring

theorem bonusCount_zero {g : GridLayout} :
    ∀ (acts : List (ActionType × ActionType)) (s : EpisodeState),
      s.win = true → bonusCount g s acts = 0
  | [], _, _ => rfl
  | a :: rest, s, h => by
    show (if s.win = false ∧ (resolve g s a.1 a.2).win = true then 1 else 0)
        + bonusCount g (resolve g s a.1 a.2) rest = 0
    rw [bonusCount_zero rest _ (resolve_win_true h)]
    rw [if_neg (by rw [h]; rintro ⟨hc, _⟩; cases hc)]

theorem bonusCount_le_one {g : GridLayout} :
    ∀ (acts : List (ActionType × ActionType)) (s : EpisodeState),
      bonusCount g s acts ≤ 1
  | [], _ => Nat.zero_le 1
  | a :: rest, s => by
    show (if s.win = false ∧ (resolve g s a.1 a.2).win = true then 1 else 0)
        + bonusCount g (resolve g s a.1 a.2) rest ≤ 1
    by_cases hflip : s.win = false ∧ (resolve g s a.1 a.2).win = true
    · rw [if_pos hflip, bonusCount_zero rest _ hflip.2]
    · rw [if_neg hflip]
      simpa using bonusCount_le_one rest (resolve g s a.1 a.2)

theorem runFrom_chancePending {g : GridLayout} :
    ∀ (acts : List (ActionType × ActionType)) (s : EpisodeState),
      (runFrom g s acts).chancePending = s.chancePending
  | [], _ => rfl
  | _ :: rest, s => runFrom_chancePending rest _

/-! ### Swap and exchange lemmas -/

theorem swap_fail {g : GridLayout} {s : EpisodeState} {i : Bool}
    (hci : cand s i = pos s (!i)) (hco : cand s (!i) = pos s i) :
    finalOk g s ActionType.moveForward ActionType.moveForward i = false := by
  cases hd : destOf (intentOf g s ActionType.moveForward ActionType.moveForward i) with
  | none => exact finalOk_none (act_same _ i) hd
  | some d =>
    have hdc : d = pos s (!i) := (destOf_some_inv hd).1.trans hci
    cases he : destOf (intentOf g s ActionType.moveForward ActionType.moveForward (!i)) with
    | none =>
      unfold finalOk
      rw [hd, he]
      simp [act_same, hdc]
    | some e =>
      have hec : e = pos s i := (destOf_some_inv he).1.trans hco
      unfold finalOk
      rw [hd, he]
      simp [act_same, hdc, hec]

theorem no_exchange {g : GridLayout} {s : EpisodeState} {a0 a1 : ActionType}
    (h01 : s.p0 ≠ s.p1) :
    ¬((resolve g s a0 a1).p0 = s.p1 ∧ (resolve g s a0 a1).p1 = s.p0) := by
  rintro ⟨hx0, hx1⟩
  rw [resolve_p0] at hx0
  rw [resolve_p1] at hx1
  rcases newPos_spec g s a0 a1 false with ⟨e0, _⟩ | ⟨hok0, hd0, _⟩
  · exact h01 (e0.symm.trans hx0)
  · have hd0v : destOf (intentOf g s a0 a1 false) = some (pos s (!false)) :=
      hd0.trans (congrArg some hx0)
    obtain ⟨e, hde, hene⟩ := finalOk_vacate_inv hok0 hd0v
    rcases newPos_spec g s a0 a1 true with ⟨e1, _⟩ | ⟨hok1, hd1, _⟩
    · exact h01 (hx1.symm.trans e1)
    · have hde2 : destOf (intentOf g s a0 a1 true) = some e := hde
      have hee : e = newPosOf g s a0 a1 true := by
        have := hde2.symm.trans hd1
        exact Option.some.inj this
      rw [hee] at hene
      exact hene hx1

/-- C1: for every pre-resolution state in which each agent's `MoveForward`
candidate cell is the other agent's current cell (a head-on swap),
resolution marks both agents `Fail` and leaves both positions unchanged;
moreover, for all action pairs, the two agents' positions are never
exchanged within one resolved turn. -/
theorem c1_no_swap (g : GridLayout) (s : EpisodeState) (h01 : s.p0 ≠ s.p1)
    (hc0 : cand s false = s.p1) (hc1 : cand s true = s.p0) :
    (resolve g s ActionType.moveForward ActionType.moveForward).status0 = ActionStatusType.fail
    ∧ (resolve g s ActionType.moveForward ActionType.moveForward).status1 = ActionStatusType.fail
    ∧ (resolve g s ActionType.moveForward ActionType.moveForward).p0 = s.p0
    ∧ (resolve g s ActionType.moveForward ActionType.moveForward).p1 = s.p1
    ∧ ∀ a0 a1 : ActionType,
        ¬((resolve g s a0 a1).p0 = s.p1 ∧ (resolve g s a0 a1).p1 = s.p0) := by
  have hf0 : finalOk g s ActionType.moveForward ActionType.moveForward false = false :=
    swap_fail (i := false) hc0 hc1
  have hf1 : finalOk g s ActionType.moveForward ActionType.moveForward true = false :=
    swap_fail (i := true) hc1 hc0
  refine ⟨?_, ?_, ?_, ?_, fun a0 a1 => no_exchange h01⟩
  · rw [resolve_status0]
    unfold statusOf
    rw [hf0]
    rfl
  · rw [resolve_status1]
    unfold statusOf
    rw [hf1]
    rfl
  · rw [resolve_p0]
    exact newPos_stay hf0
  · rw [resolve_p1]
    exact newPos_stay hf1

/-! ### Concrete example fixtures -/

/-- A 4-by-6 all-open example grid. -/
def exG : GridLayout :=
  { rows := 4, cols := 6, cell := fun _ => CellKind.Open }

/-- An example mid-episode state on `exG`. -/
def exS : EpisodeState :=
  { p0 := (1, 1), p1 := (1, 3), o0 := Orientation.east, o1 := Orientation.west,
    smallPos := (3, 0), bigPos := (3, 5), totalMoves := 0, horizon := 10,
    initiative := false, win := false, reward := 0, totalRewards := 0,
    status0 := ActionStatusType.unresolved, status1 := ActionStatusType.unresolved,
    chancePending := false }

/-- A head-on swap configuration: adjacent agents facing each other. -/
def exSwap : EpisodeState := { exS with p1 := (1, 2) }

/-- An example state whose win flag is already set. -/
def exWin : EpisodeState := { exS with win := true }

/-- The large object directly ahead of agent 0, agent 1 elsewhere. -/
def exBig : EpisodeState := { exS with bigPos := (1, 2), p1 := (3, 3) }

/-- C1 witness: the head-on swap configuration on the example grid. -/
theorem c1_no_swap_witness :
    exSwap.p0 ≠ exSwap.p1 ∧ cand exSwap false = exSwap.p1 ∧ cand exSwap true = exSwap.p0
      ∧ (resolve exG exSwap ActionType.moveForward ActionType.moveForward).status0
          = ActionStatusType.fail := by
  refine ⟨by decide, by decide, by decide, ?_⟩
  exact (c1_no_swap exG exSwap (by decide) (by decide) (by decide)).1

/-- C4: each resolved turn increases the step counter by exactly one; the
state is terminal exactly when the win flag is set or the step count
equals the horizon; the win flag, once set, persists through any further
resolutions, and a won state is terminal, so the episode driver performs
no further resolution on it. -/
theorem c4_termination (g : GridLayout) (s : EpisodeState) (a0 a1 : ActionType) :
    (resolve g s a0 a1).totalMoves = s.totalMoves + 1
    ∧ (isTerminalState s = true ↔ (s.win = true ∨ s.totalMoves = s.horizon))
    ∧ (s.win = true → (resolve g s a0 a1).win = true)
    ∧ (∀ acts : List (ActionType × ActionType), s.win = true → (runFrom g s acts).win = true)
    ∧ (s.win = true → isTerminalState s = true)
    ∧ (isTerminalState s = true → currentMover s = Mover.terminal) := by
  refine ⟨rfl, ?_, fun h => resolve_win_true h, fun acts h => runFrom_win_true acts s h, ?_, ?_⟩
  · simp [isTerminalState]
  · intro h
    simp [isTerminalState, h]
  · intro h
    simp [currentMover, h]

/-- C4 witness: one resolved turn on concrete states. -/
theorem c4_termination_witness :
    (resolve exG exS ActionType.stay ActionType.stay).totalMoves = 1
    ∧ (resolve exG exWin ActionType.stay ActionType.stay).win = true
    ∧ isTerminalState exWin = true := by
  refine ⟨(c4_termination exG exS ActionType.stay ActionType.stay).1, ?_, ?_⟩
  · exact (c4_termination exG exWin ActionType.stay ActionType.stay).2.2.1 rfl
  · exact (c4_termination exG exWin ActionType.stay ActionType.stay).2.2.2.2.1 rfl

/-- C5: every state reachable by resolved turns from a pre-state
satisfying the placement invariant (as the layout-defined start cells do)
keeps the two agents, the small object and the large object on
pairwise-distinct, in-bounds, non-wall cells. -/
theorem c5_mutual_exclusion (g : GridLayout) (s0 s : EpisodeState)
    (hInv : Inv g s0) (hr : Reachable g s0 s) : Inv g s :=
  Inv_reachable hInv hr

/-- C5 witness: the invariant holds concretely and is kept by a resolved
turn. -/
theorem c5_mutual_exclusion_witness :
    Inv exG exS
      ∧ Inv exG (resolve exG exS ActionType.moveForward ActionType.moveForward) :=
  ⟨by decide, c5_mutual_exclusion exG exS _ (by decide)
      (Reachable.step ActionType.moveForward ActionType.moveForward Reachable.refl)⟩

/-- C6: the accumulated return is the sum of the per-turn rewards since
episode start; the per-turn reward is the step cost plus the win bonus
exactly on the turn the win flag transitions, and no run charges the bonus
more than once; the returns and step-reward vectors have length 2 with
both entries identical. -/
theorem c6_reward_accounting (g : GridLayout) (s : EpisodeState) (a0 a1 : ActionType)
    (acts : List (ActionType × ActionType)) (a b sm bg : Coord) (h o : Nat) :
    ((runFrom g s acts).totalRewards = s.totalRewards + (rewardsAlong g s acts).sum)
    ∧ ((runFrom g (applyChanceOutcome (startState a b sm bg h) o) acts).totalRewards
        = (rewardsAlong g (applyChanceOutcome (startState a b sm bg h) o) acts).sum)
    ∧ (stepReward g s a0 a1
        = stepCost + (if s.win = false ∧ (resolve g s a0 a1).win = true then winBonus else 0))
    ∧ (bonusCount g s acts ≤ 1)
    ∧ ((resolve g s a0 a1).reward = stepReward g s a0 a1)
    ∧ ((resolve g s a0 a1).totalRewards = s.totalRewards + stepReward g s a0 a1)
    ∧ returnsOf s = List.replicate 2 s.totalRewards
    ∧ rewardsOf s = List.replicate 2 s.reward := by
  refine ⟨runFrom_totalRewards acts s, ?_, rfl, bonusCount_le_one acts s, rfl, rfl, rfl, rfl⟩
  rw [runFrom_totalRewards]
  show (0 : ℚ) + _ = _
  rw [zero_add]

/-- C9: the episode-start chance node has exactly 4 outcomes of
probability 1/4 each, summing to 1 (and the game declares 4 as its
maximum); a fresh episode is at the chance node, applying the outcome
leaves it, and no resolved turn ever re-enters the chance phase. -/
theorem c9_chance_draw (g : GridLayout) (s : EpisodeState) (o : Nat) (a b sm bg : Coord)
    (h : Nat) (acts : List (ActionType × ActionType)) (a0 a1 : ActionType) (hh : 0 < h) :
    chanceOutcomes.length = 4
    ∧ (∀ pr ∈ chanceOutcomes, pr.2 = 1/4)
    ∧ (chanceOutcomes.map Prod.snd).sum = 1
    ∧ maxChanceOutcomes = 4
    ∧ (startState a b sm bg h).chancePending = true
    ∧ currentMover (startState a b sm bg h) = Mover.chance
    ∧ (applyChanceOutcome s o).chancePending = false
    ∧ ((resolve g s a0 a1).chancePending = s.chancePending)
    ∧ ((runFrom g (applyChanceOutcome (startState a b sm bg h) o) acts).chancePending = false)
    ∧ (s.chancePending = false → currentMover s ≠ Mover.chance) := by
  refine ⟨rfl, ?_, by norm_num [chanceOutcomes], rfl, rfl, ?_, rfl, rfl, ?_, ?_⟩
  · intro pr hpr
    simp only [chanceOutcomes, List.mem_cons, List.not_mem_nil, or_false] at hpr
    rcases hpr with rfl | rfl | rfl | rfl <;> rfl
  · have hterm : isTerminalState (startState a b sm bg h) = false := by
      unfold isTerminalState startState
      simp
      omega
    unfold currentMover
    rw [hterm]
    simp [startState]
  · rw [runFrom_chancePending]
    rfl
  · intro h2
    unfold currentMover
    split_ifs with t1 t2 <;> simp_all

/-- C9 witness: a concrete fresh episode with positive horizon. -/
theorem c9_chance_draw_witness :
    0 < 10
    ∧ currentMover (startState (1, 1) (1, 3) (3, 0) (3, 5) 10) = Mover.chance := by
  refine ⟨by decide, ?_⟩
  exact (c9_chance_draw exG exS 0 (1, 1) (1, 3) (3, 0) (3, 5) 10 []
    ActionType.stay ActionType.stay (by decide)).2.2.2.2.2.1

/-- C10: for every state and agent, the legal-action list is exactly the
four actions TurnLeft, TurnRight, MoveForward, Stay, independent of the
state and the agent. -/
theorem c10_legal_actions (s : EpisodeState) (i : Bool) :
    legalActions s i
      = [ActionType.turnLeft, ActionType.turnRight, ActionType.moveForward, ActionType.stay]
    ∧ (∀ a : ActionType, a ∈ legalActions s i)
    ∧ (∀ (t : EpisodeState) (j : Bool), legalActions s i = legalActions t j) := by
  refine ⟨rfl, ?_, fun _ _ => rfl⟩
  intro a
  cases a <;> simp [legalActions]

/-- C2: when both agents' `MoveForward` candidates coincide on the same
free `Open` cell, the agent designated by the episode's initiative is
marked `Success` and moves into the cell, and the other agent is marked
`Fail` and does not move. -/
theorem c2_tie_break (g : GridLayout) (s : EpisodeState) (c : Coord)
    (hc0 : cand s false = c) (hc1 : cand s true = c)
    (hin : inB g c = true) (hopen : g.cell c = CellKind.Open)
    (hp0 : c ≠ s.p0) (hp1 : c ≠ s.p1) (hsm : c ≠ s.smallPos) (hbg : c ≠ s.bigPos) :
    pos (resolve g s ActionType.moveForward ActionType.moveForward) s.initiative = c
    ∧ statusField (resolve g s ActionType.moveForward ActionType.moveForward) s.initiative
        = ActionStatusType.success
    ∧ pos (resolve g s ActionType.moveForward ActionType.moveForward) (!s.initiative)
        = pos s (!s.initiative)
    ∧ statusField (resolve g s ActionType.moveForward ActionType.moveForward) (!s.initiative)
        = ActionStatusType.fail := by
  have hI0 : intentOf g s ActionType.moveForward ActionType.moveForward false = .move c := by
    unfold intentOf
    simp [act_same, hc0, hin, hopen, hsm, hbg]
  have hI1 : intentOf g s ActionType.moveForward ActionType.moveForward true = .move c := by
    unfold intentOf
    simp [act_same, hc1, hin, hopen, hsm, hbg]
  have hd0 : destOf (intentOf g s ActionType.moveForward ActionType.moveForward false)
      = some c := by
    rw [hI0]
    rfl
  have hd1 : destOf (intentOf g s ActionType.moveForward ActionType.moveForward true)
      = some c := by
    rw [hI1]
    rfl
  have hov : overlaps (claimsOf (intentOf g s ActionType.moveForward ActionType.moveForward false))
      (claimsOf (intentOf g s ActionType.moveForward ActionType.moveForward true)) = true := by
    rw [hI0, hI1]
    simp [claimsOf, overlaps]
  have hov2 : overlaps (claimsOf (intentOf g s ActionType.moveForward ActionType.moveForward true))
      (claimsOf (intentOf g s ActionType.moveForward ActionType.moveForward false)) = true := by
    rw [hI0, hI1]
    simp [claimsOf, overlaps]
  have hnb : ¬(isPushBig (intentOf g s ActionType.moveForward ActionType.moveForward false) = true
      ∧ isPushBig (intentOf g s ActionType.moveForward ActionType.moveForward true) = true) := by
    rw [hI0]
    simp [isPushBig]
  have hnb2 : ¬(isPushBig (intentOf g s ActionType.moveForward ActionType.moveForward true) = true
      ∧ isPushBig (intentOf g s ActionType.moveForward ActionType.moveForward false) = true) := by
    rw [hI1]
    simp [isPushBig]
  have hne0 : c ≠ pos s (!false) := hp1
  have hne1 : c ≠ pos s (!true) := hp0
  have hf0 : finalOk g s ActionType.moveForward ActionType.moveForward false
      = decide (false = s.initiative) := finalOk_priority hd0 hne0 hd1 hov hnb
  have hf1 : finalOk g s ActionType.moveForward ActionType.moveForward true
      = decide (true = s.initiative) := finalOk_priority hd1 hne1 hd0 hov2 hnb2
  cases hini : s.initiative with
  | false =>
    have hok0 : finalOk g s ActionType.moveForward ActionType.moveForward false = true := by
      rw [hf0, hini]
      rfl
    have hok1 : finalOk g s ActionType.moveForward ActionType.moveForward true = false := by
      rw [hf1, hini]
      rfl
    refine ⟨?_, ?_, ?_, ?_⟩
    · rw [pos_resolve]
      exact newPos_move hok0 hd0
    · rw [statusField_resolve]
      unfold statusOf
      rw [hok0]
      rfl
    · rw [pos_resolve]
      exact newPos_stay hok1
    · rw [statusField_resolve]
      unfold statusOf
      have hok1x : finalOk g s ActionType.moveForward ActionType.moveForward (!false) = false :=
        hok1
      rw [hok1x]
      rfl
  | true =>
    have hok1 : finalOk g s ActionType.moveForward ActionType.moveForward true = true := by
      rw [hf1, hini]
      rfl
    have hok0 : finalOk g s ActionType.moveForward ActionType.moveForward false = false := by
      rw [hf0, hini]
      rfl
    refine ⟨?_, ?_, ?_, ?_⟩
    · rw [pos_resolve]
      exact newPos_move hok1 hd1
    · rw [statusField_resolve]
      unfold statusOf
      rw [hok1]
      rfl
    · rw [pos_resolve]
      exact newPos_stay hok0
    · rw [statusField_resolve]
      unfold statusOf
      have hok0x : finalOk g s ActionType.moveForward ActionType.moveForward (!true) = false :=
        hok0
      rw [hok0x]
      rfl

/-- C2 witness: both agents contest the free open cell (1, 2); initiative
is agent 0. -/
theorem c2_tie_break_witness :
    cand exS false = (1, 2) ∧ cand exS true = (1, 2) ∧ exG.cell (1, 2) = CellKind.Open
    ∧ (resolve exG exS ActionType.moveForward ActionType.moveForward).p0 = (1, 2)
    ∧ (resolve exG exS ActionType.moveForward ActionType.moveForward).status1
        = ActionStatusType.fail := by
  have h := c2_tie_break exG exS (1, 2) (by decide) (by decide) (by decide) (by decide)
    (by decide) (by decide) (by decide) (by decide)
  exact ⟨by decide, by decide, by decide, h.1, h.2.2.2⟩

/-- C3: when exactly one agent's `MoveForward` targets the large object's
cell and the other agent does not also push it with the same orientation,
the pusher is marked `Fail` and the large object does not move; in
general, the large object moves only when both agents simultaneously push
it from the same orientation and its further target cell is valid. -/
theorem c3_solo_push (g : GridLayout) (s : EpisodeState) (a0 a1 : ActionType) (i : Bool)
    (hmf : act a0 a1 i = ActionType.moveForward)
    (hci : cand s i = s.bigPos)
    (hnot : ¬(act a0 a1 (!i) = ActionType.moveForward ∧ cand s (!i) = s.bigPos
        ∧ orient s i = orient s (!i))) :
    (statusField (resolve g s a0 a1) i = ActionStatusType.fail
      ∧ (resolve g s a0 a1).bigPos = s.bigPos)
    ∧ (∀ b0 b1 : ActionType, (resolve g s b0 b1).bigPos ≠ s.bigPos →
        (act b0 b1 false = ActionType.moveForward ∧ act b0 b1 true = ActionType.moveForward
          ∧ cand s false = s.bigPos ∧ cand s true = s.bigPos
          ∧ orient s false = orient s true
          ∧ inB g (stepTo s.bigPos (orient s false)) = true
          ∧ g.cell (stepTo s.bigPos (orient s false)) ≠ CellKind.Wall
          ∧ stepTo s.bigPos (orient s false) ≠ s.smallPos
          ∧ (resolve g s b0 b1).bigPos = stepTo s.bigPos (orient s false))) := by
  have hIi : intentOf g s a0 a1 i = .blocked := by
    unfold intentOf
    rw [if_neg (by simp [hmf])]
    by_cases hb : inB g (cand s i) = false ∨ g.cell (cand s i) = CellKind.Wall
    · rw [if_pos hb]
    · rw [if_neg hb, if_pos hci,
        if_neg (fun hcond => hnot ⟨hcond.1, hcond.2.1, hcond.2.2.1⟩)]
  have hoki : finalOk g s a0 a1 i = false := finalOk_none hmf (by rw [hIi]; rfl)
  have hnotherbig : ∀ d b, intentOf g s a0 a1 (!i) ≠ .pushBig d b := by
    intro d b hI
    obtain ⟨e1, e2, e3, e4, e5, e6, _⟩ := pushBig_inv hI
    have hnn : (!(!i)) = i := Bool.not_not i
    rw [hnn] at e4 e6
    exact hnot ⟨e5, e1.symm.trans e2, e4.symm⟩
  have heffnone : ∀ j : Bool, effBigPush g s a0 a1 j = Option.none := by
    intro j
    cases hE : effBigPush g s a0 a1 j with
    | none => rfl
    | some b =>
      obtain ⟨hokj, d, hIj⟩ := effBigPush_some_inv hE
      by_cases hj : j = i
      · rw [hj, hIi] at hIj
        cases hIj
      · have hj2 : j = !i := by cases j <;> cases i <;> simp_all
        rw [hj2] at hIj
        exact absurd hIj (hnotherbig d b)
  have hbigfix : (resolve g s a0 a1).bigPos = s.bigPos := by
    rw [resolve_bigPos]
    unfold newBigPos
    rw [heffnone false, heffnone true]
  refine ⟨⟨?_, hbigfix⟩, ?_⟩
  · rw [statusField_resolve]
    unfold statusOf
    rw [hoki]
    rfl
  · intro b0 b1 hmoved
    rw [resolve_bigPos] at hmoved
    have key : ∃ j d b, finalOk g s b0 b1 j = true ∧ intentOf g s b0 b1 j = .pushBig d b
        ∧ newBigPos g s b0 b1 = b := by
      cases h0 : effBigPush g s b0 b1 false with
      | some b =>
        obtain ⟨hok, d, hI⟩ := effBigPush_some_inv h0
        refine ⟨false, d, b, hok, hI, ?_⟩
        unfold newBigPos
        rw [h0]
      | none =>
        cases h1 : effBigPush g s b0 b1 true with
        | some b =>
          obtain ⟨hok, d, hI⟩ := effBigPush_some_inv h1
          refine ⟨true, d, b, hok, hI, ?_⟩
          unfold newBigPos
          rw [h0, h1]
        | none =>
          exfalso
          apply hmoved
          unfold newBigPos
          rw [h0, h1]
    obtain ⟨j, d, b, hok, hI, hnew⟩ := key
    cases j with
    | false =>
      obtain ⟨e1, e2, e3, e4, e5, e6, e7, e8, e9, e10, _, _⟩ := pushBig_inv hI
      refine ⟨e5, e6, e1.symm.trans e2, e3, e4, ?_, ?_, ?_, ?_⟩
      · rw [← e7]
        exact e8
      · rw [← e7]
        exact e9
      · rw [← e7]
        exact e10
      · rw [resolve_bigPos, hnew]
        exact e7
    | true =>
      obtain ⟨e1, e2, e3, e4, e5, e6, e7, e8, e9, e10, _, _⟩ := pushBig_inv hI
      have e4x : orient s true = orient s false := e4
      have e7x : b = stepTo s.bigPos (orient s false) := by
        rw [e7, e4x]
      refine ⟨e6, e5, e3, e1.symm.trans e2, e4x.symm, ?_, ?_, ?_, ?_⟩
      · rw [← e7x]
        exact e8
      · rw [← e7x]
        exact e9
      · rw [← e7x]
        exact e10
      · rw [resolve_bigPos, hnew]
        exact e7x

/-- C3 witness: agent 0 alone pushes the large object on the example
grid. -/
theorem c3_solo_push_witness :
    act ActionType.moveForward ActionType.stay false = ActionType.moveForward
    ∧ cand exBig false = exBig.bigPos
    ∧ (resolve exG exBig ActionType.moveForward ActionType.stay).bigPos = exBig.bigPos
    ∧ (resolve exG exBig ActionType.moveForward ActionType.stay).status0
        = ActionStatusType.fail := by
  have h := c3_solo_push exG exBig ActionType.moveForward ActionType.stay false
    (by decide) (by decide) (by decide)
  exact ⟨by decide, by decide, h.1.2, h.1.1⟩

/-- A state like `exS` that differs only in bookkeeping fields
(step counter, rewards, statuses, phase flag). -/
def exBook : EpisodeState :=
  { exS with
    totalMoves := 5
    horizon := 20
    reward := 3
    totalRewards := 7
    status0 := ActionStatusType.success
    status1 := ActionStatusType.fail
    chancePending := true }

/-- C8: resolution is a deterministic function of the grid, the
resolution-relevant pre-state components (agent positions and
orientations, object positions, initiative, win flag) and the submitted
action pair: two states agreeing on those components resolve to identical
positions, orientations, object positions, statuses, win flag and step
reward. -/
theorem c8_determinism (g : GridLayout) (s t : EpisodeState) (a0 a1 : ActionType)
    (hp0 : s.p0 = t.p0) (hp1 : s.p1 = t.p1) (ho0 : s.o0 = t.o0) (ho1 : s.o1 = t.o1)
    (hsm : s.smallPos = t.smallPos) (hbg : s.bigPos = t.bigPos)
    (hini : s.initiative = t.initiative) (hwin : s.win = t.win) :
    (resolve g s a0 a1).p0 = (resolve g t a0 a1).p0
    ∧ (resolve g s a0 a1).p1 = (resolve g t a0 a1).p1
    ∧ (resolve g s a0 a1).o0 = (resolve g t a0 a1).o0
    ∧ (resolve g s a0 a1).o1 = (resolve g t a0 a1).o1
    ∧ (resolve g s a0 a1).smallPos = (resolve g t a0 a1).smallPos
    ∧ (resolve g s a0 a1).bigPos = (resolve g t a0 a1).bigPos
    ∧ (resolve g s a0 a1).status0 = (resolve g t a0 a1).status0
    ∧ (resolve g s a0 a1).status1 = (resolve g t a0 a1).status1
    ∧ (resolve g s a0 a1).win = (resolve g t a0 a1).win
    ∧ stepReward g s a0 a1 = stepReward g t a0 a1 := by
  cases s
  cases t
  dsimp only at hp0 hp1 ho0 ho1 hsm hbg hini hwin
  subst hp0 hp1 ho0 ho1 hsm hbg hini hwin
  exact ⟨rfl, rfl, rfl, rfl, rfl, rfl, rfl, rfl, rfl, rfl⟩

/-- C8 witness: two concrete states differing only in bookkeeping
fields resolve alike. -/
theorem c8_determinism_witness :
    (resolve exG exS ActionType.moveForward ActionType.stay).p0
      = (resolve exG exBook ActionType.moveForward ActionType.stay).p0 :=
  (c8_determinism exG exS exBook ActionType.moveForward ActionType.stay
    rfl rfl rfl rfl rfl rfl rfl rfl).1

/-- First observation-claim state: agent 0 at the corner, every other
entity far outside agent 0's 3-by-3 neighborhood. -/
def exObs1 : EpisodeState :=
  { exS with
    p0 := (0, 0)
    o0 := Orientation.east
    p1 := (0, 4)
    smallPos := (3, 4)
    bigPos := (3, 5) }

/-- Second observation-claim state: identical except the small object's
far-away cell. -/
def exObs2 : EpisodeState := { exObs1 with smallPos := (3, 3) }

/-- C7 counterexample: two states that differ only in grid content beyond
agent 0's bounded neighborhood (the far-away small object's cell)
nevertheless yield different `InformationState` strings for agent 0,
because the header's inline `InformationState` embeds the full-state
rendering. -/
theorem c7_counterexample :
    exObs2 = { exObs1 with smallPos := (3, 3) }
    ∧ exObs1.p0 = exObs2.p0 ∧ exObs1.o0 = exObs2.o0
    ∧ exObs1.p1 = exObs2.p1 ∧ exObs1.o1 = exObs2.o1
    ∧ exObs1.bigPos = exObs2.bigPos
    ∧ exObs1.smallPos ∉ neighborhood exObs1 false
    ∧ exObs2.smallPos ∉ neighborhood exObs2 false
    ∧ informationState exG exObs1 0 ≠ informationState exG exObs2 0 :=
  ⟨rfl, rfl, rfl, rfl, rfl, rfl, by decide, by decide, by decide⟩

/-- C7 amended: the hidden-component independence holds for the
observation vector: two states agreeing on the viewer's position,
orientation and scalar features, and on each movable entity whenever it
lies in the viewer's bounded neighborhood, produce identical observation
vectors.  The `InformationState` string, by contrast, is the observer
prefix plus the full-state rendering, so it coincides exactly when the
full renderings coincide and in particular can differ across states that
differ only in hidden components. -/
theorem c7_amended (g : GridLayout) (s1 s2 : EpisodeState) (v : Bool) (pl : Nat)
    (hp : pos s1 v = pos s2 v) (ho : orient s1 v = orient s2 v)
    (htm : s1.totalMoves = s2.totalMoves) (hhz : s1.horizon = s2.horizon)
    (hwin : s1.win = s2.win)
    (hoth : (pos s1 (!v) ∈ neighborhood s1 v ∨ pos s2 (!v) ∈ neighborhood s1 v)
        → pos s1 (!v) = pos s2 (!v))
    (hsm : (s1.smallPos ∈ neighborhood s1 v ∨ s2.smallPos ∈ neighborhood s1 v)
        → s1.smallPos = s2.smallPos)
    (hbg : (s1.bigPos ∈ neighborhood s1 v ∨ s2.bigPos ∈ neighborhood s1 v)
        → s1.bigPos = s2.bigPos) :
    observationVector g s1 v = observationVector g s2 v
    ∧ (∀ t : EpisodeState, informationState g t pl
        = "Observing player: " ++ toString pl ++ "\n" ++ stateToString g t)
    ∧ (stateToString g s1 = stateToString g s2
        → informationState g s1 pl = informationState g s2 pl) := by
  refine ⟨?_, fun t => rfl, fun h => by unfold informationState; rw [h]⟩
  unfold observationVector
  have hnb : neighborhood s1 v = neighborhood s2 v := by
    unfold neighborhood
    rw [hp]
  rw [← hnb, ho, htm, hhz, hwin]
  have hmap : ∀ q ∈ neighborhood s1 v, cellCode g s1 v q = cellCode g s2 v q := by
    intro q hq
    unfold cellCode
    by_cases hb : inB g q = false
    · rw [if_pos hb, if_pos hb]
    · rw [if_neg hb, if_neg hb]
      by_cases hqv : q = pos s1 v
      · rw [if_pos hqv, if_pos (hqv.trans hp), ho]
      · have hqv2 : ¬q = pos s2 v := by
          rw [← hp]
          exact hqv
        rw [if_neg hqv, if_neg hqv2]
        by_cases hqo : q = pos s1 (!v)
        · have h1 : pos s1 (!v) ∈ neighborhood s1 v := hqo ▸ hq
          rw [if_pos hqo, if_pos (hqo.trans (hoth (Or.inl h1)))]
        · by_cases hqo2 : q = pos s2 (!v)
          · have h2 : pos s2 (!v) ∈ neighborhood s1 v := hqo2 ▸ hq
            exact absurd (hqo2.trans (hoth (Or.inr h2)).symm) hqo
          · rw [if_neg hqo, if_neg hqo2]
            by_cases hqs : q = s1.smallPos
            · have h1 : s1.smallPos ∈ neighborhood s1 v := hqs ▸ hq
              rw [if_pos hqs, if_pos (hqs.trans (hsm (Or.inl h1)))]
            · by_cases hqs2 : q = s2.smallPos
              · have h2 : s2.smallPos ∈ neighborhood s1 v := hqs2 ▸ hq
                exact absurd (hqs2.trans (hsm (Or.inr h2)).symm) hqs
              · rw [if_neg hqs, if_neg hqs2]
                by_cases hqb : q = s1.bigPos
                · have h1 : s1.bigPos ∈ neighborhood s1 v := hqb ▸ hq
                  rw [if_pos hqb, if_pos (hqb.trans (hbg (Or.inl h1)))]
                · by_cases hqb2 : q = s2.bigPos
                  · have h2 : s2.bigPos ∈ neighborhood s1 v := hqb2 ▸ hq
                    exact absurd (hqb2.trans (hbg (Or.inr h2)).symm) hqb
                  · rw [if_neg hqb, if_neg hqb2]
  rw [List.map_congr_left hmap]

/-- C7 amended witness: the two concrete observation states yield the
same observation vector for agent 0. -/
theorem c7_amended_witness :
    observationVector exG exObs1 false = observationVector exG exObs2 false :=
  (c7_amended exG exObs1 exObs2 false 0 rfl rfl rfl rfl rfl (fun _ => rfl)
    (by decide) (fun _ => rfl)).1

end CoopBoxPushing
